import Mathlib

/-!
Verification of the template-compiler / virtual-DOM core of a Vue-2.6.10-style
framework, shallowly embedded from the repository sources:

* `Optimizer`   — src/compiler/optimizer.js (markStatic / markStaticRoots / isStatic)
* `Codegen`     — codegen (genIfConditions) from the compiler codegen module
* `RenderStatic`— src/core/instance/render-helpers/render-static.js
* `Render`      — src/core/instance/render.js (Vue.prototype._render)
* `Parser`      — src/compiler/parser/index.js (closeElement children cleanup)
* `Patch`       — src/core/vdom/patch.js (sameVnode, findIdxInOld, updateChildren)

JavaScript objects are modelled by structures whose optional fields are
`Option`-typed: `none` means the key is absent from the object, which matters
because the optimizer inspects `Object.keys(node)`.  In-place mutation is
modelled by functions returning the rewritten tree / explicit state passing.
-/

namespace Optimizer

/-- Non-recursive payload of an AST element node as built by
`createASTElement` and the parser's processing passes
(src/compiler/parser/index.js).  Boolean fields model JS keys whose presence
coincides with truthiness (`el.pre = true`, `el.hasBindings = true`,
`el.if = exp`, `el.for = exp`, `el.once = true`, `el.inlineTemplate = true`);
`extraKeys` stands for any further keys the parser may have put on the node
(`key`, `ref`, `slotTarget`, `events`, ...), relevant only through
`Object.keys(node)`. -/
structure ElemData where
  tag : String
  pre : Bool := false
  hasBindings : Bool := false
  hasIf : Bool := false
  hasFor : Bool := false
  once : Bool := false
  inlineTemplate : Bool := false
  extraKeys : List String := []
deriving Repr, DecidableEq

/-- AST node, `type` 1/2/3 of the source: an element with children and the
`elseif`/`else` blocks hanging off its `ifConditions` list (entries 1.. of
`ifConditions`; entry 0 is the node itself and is skipped by both optimizer
loops), an interpolation expression node, or a plain text node.  The mutable
optimizer flags `static`, `staticRoot`, `staticInFor` are carried as `Option
Bool`: `none` = key absent. -/
inductive ASTNode where
  | elem (d : ElemData) (children : List ASTNode) (ifBlocks : List ASTNode)
      (static : Option Bool) (staticRoot : Option Bool) (staticInFor : Option Bool)
  | expr (static : Option Bool)
  | text (static : Option Bool)
deriving Repr

namespace ASTNode

/-- JS truthiness of `node.static` (absent key reads as `undefined`). -/
def staticB : ASTNode → Bool
  | elem _ _ _ st _ _ => st.getD false
  | expr st => st.getD false
  | text st => st.getD false

/-- `node.static` as the raw optional field. -/
def staticF : ASTNode → Option Bool
  | elem _ _ _ st _ _ => st
  | expr st => st
  | text st => st

/-- `node.staticRoot` as the raw optional field (non-elements never carry it). -/
def staticRootF : ASTNode → Option Bool
  | elem _ _ _ _ sr _ => sr
  | _ => none

/-- `node.staticInFor` as the raw optional field. -/
def staticInForF : ASTNode → Option Bool
  | elem _ _ _ _ _ sif => sif
  | _ => none

/-- `node.type === 3` (plain text node). -/
def isText : ASTNode → Bool
  | text _ => true
  | _ => false

/-- `node.type === 1` (element node). -/
def isElem : ASTNode → Bool
  | elem _ _ _ _ _ _ => true
  | _ => false

end ASTNode

/-- `makeMap('slot,component', true)` from shared/util: the built-in
pseudo-tags. -/
def isBuiltInTag (tag : String) : Bool :=
  tag == "slot" || tag == "component"

/-- The always-allowed keys of `genStaticKeys` in the optimizer:
`'type,tag,attrsList,attrsMap,plain,parent,children,attrs,start,end,rawAttrsMap'`. -/
def baseStaticKeys : List String :=
  ["type", "tag", "attrsList", "attrsMap", "plain", "parent", "children",
   "attrs", "start", "end", "rawAttrsMap"]

/-- `isStaticKey = genStaticKeysCached(options.staticKeys || '')`: membership
in the map built from the base keys plus the platform's `staticKeys` option
(`extra`). -/
def isStaticKey (extra : List String) (k : String) : Bool :=
  baseStaticKeys.contains k || extra.contains k

/-- `Object.keys(node)` for an element node: the keys of `createASTElement`
(plus `plain`, set by `processElement`), then every conditionally present
key.  The optimizer flags appear exactly when their field is `some _`. -/
def elemKeys (d : ElemData) (st sr sif : Option Bool) : List String :=
  ["type", "tag", "attrsList", "attrsMap", "rawAttrsMap", "parent",
   "children", "plain"]
  ++ (if d.pre then ["pre"] else [])
  ++ (if d.hasBindings then ["hasBindings"] else [])
  ++ (if d.hasIf then ["if", "ifConditions"] else [])
  ++ (if d.hasFor then ["for"] else [])
  ++ (if d.once then ["once"] else [])
  ++ (if d.inlineTemplate then ["inlineTemplate"] else [])
  ++ d.extraKeys
  ++ (if st.isSome then ["static"] else [])
  ++ (if sr.isSome then ["staticRoot"] else [])
  ++ (if sif.isSome then ["staticInFor"] else [])

/-- `isDirectChildOfTemplateFor(node)`: walk the chain of ancestors
(`(tag, has v-for)` pairs, nearest first); a non-`template` ancestor stops the
walk with `false`, a `template` ancestor with `for` yields `true`. -/
def isDirectChildOfTemplateFor : List (String × Bool) → Bool
  | [] => false
  | (tag, hasFor) :: rest =>
    if tag ≠ "template" then false
    else if hasFor then true
    else isDirectChildOfTemplateFor rest

/-- `isStatic(node)` of src/compiler/optimizer.js.  `resv` is the injected
`isPlatformReservedTag` predicate, `extra` the platform `staticKeys`, `anc`
the ancestor chain standing in for the `parent` back-references. -/
def isStatic (resv : String → Bool) (extra : List String)
    (anc : List (String × Bool)) : ASTNode → Bool
  | .expr _ => false
  | .text _ => true
  | .elem d _ _ st sr sif =>
    d.pre ||
      (!d.hasBindings && !d.hasIf && !d.hasFor &&
       !isBuiltInTag d.tag &&
       resv d.tag &&
       !isDirectChildOfTemplateFor anc &&
       (elemKeys d st sr sif).all (isStaticKey extra))

mutual

/-- `markStatic(node)`: set `node.static = isStatic(node)`; for element nodes
that are reserved tags, `slot`s, or inline templates, recurse into children
and the `ifConditions` blocks and demote the node when any of them is
non-static.  Component-like elements return before visiting children.  An
`ifConditions` block is a sibling in the source tree, so it keeps the ancestor
chain `anc` of the node itself. -/
def markStatic (resv : String → Bool) (extra : List String)
    (anc : List (String × Bool)) : ASTNode → ASTNode
  | .expr _ => .expr (some false)
  | .text _ => .text (some true)
  | .elem d ch blocks st sr sif =>
    let s := isStatic resv extra anc (.elem d ch blocks st sr sif)
    if !resv d.tag && d.tag ≠ "slot" && !d.inlineTemplate then
      .elem d ch blocks (some s) sr sif
    else
      let ch' := markStaticList resv extra ((d.tag, d.hasFor) :: anc) ch
      let s := if ch'.any (fun c => !c.staticB) then false else s
      let blocks' := markStaticList resv extra anc blocks
      let s := if blocks'.any (fun b => !b.staticB) then false else s
      .elem d ch' blocks' (some s) sr sif

/-- The `for` loops of `markStatic` over `node.children` /
`node.ifConditions`. -/
def markStaticList (resv : String → Bool) (extra : List String)
    (anc : List (String × Bool)) : List ASTNode → List ASTNode
  | [] => []
  | n :: ns => markStatic resv extra anc n :: markStaticList resv extra anc ns

end

mutual

/-- `markStaticRoots(node, isInFor)`: on element nodes, record `staticInFor`
for static/once nodes, then either mark the node `staticRoot = true` and
return (children and condition blocks are then NOT visited), or mark it
`staticRoot = false` and recurse into children (pushing `isInFor || node.for`)
and into the `ifConditions` blocks (with plain `isInFor`). -/
def markStaticRoots (isInFor : Bool) : ASTNode → ASTNode
  | .expr st => .expr st
  | .text st => .text st
  | .elem d ch blocks st _sr sif =>
    let sif := if st.getD false || d.once then some isInFor else sif
    if st.getD false && !ch.isEmpty &&
        !(ch.length == 1 && (ch.headD (.text none)).isText) then
      .elem d ch blocks st (some true) sif
    else
      let ch' := markStaticRootsList (isInFor || d.hasFor) ch
      let blocks' := markStaticRootsList isInFor blocks
      .elem d ch' blocks' st (some false) sif

/-- The `for` loops of `markStaticRoots` over `node.children` /
`node.ifConditions`. -/
def markStaticRootsList (isInFor : Bool) : List ASTNode → List ASTNode
  | [] => []
  | n :: ns => markStaticRoots isInFor n :: markStaticRootsList isInFor ns

end

/-- `optimize(root, options)`: pass 1 (`markStatic`) then pass 2
(`markStaticRoots(root, false)`).  The root has no ancestors. -/
def optimize (resv : String → Bool) (extra : List String) (root : ASTNode) :
    ASTNode :=
  markStaticRoots false (markStatic resv extra [] root)

/-- The exact condition under which `markStaticRoots` sets
`staticRoot = true` on a node: static, at least one child, and the children
are not exactly one plain-text node. -/
def srCond : ASTNode → Bool
  | .elem _ ch _ st _ _ =>
    st.getD false && !ch.isEmpty &&
      !(ch.length == 1 && (ch.headD (.text none)).isText)
  | _ => false

mutual

/-- No node of the tree carries a `staticRoot` key (true of every tree the
parser produces: only the optimizer writes that key). -/
def srNoneTree : ASTNode → Bool
  | .elem _ ch bl _ sr _ => sr.isNone && srNoneTreeList ch && srNoneTreeList bl
  | .expr _ => true
  | .text _ => true

def srNoneTreeList : List ASTNode → Bool
  | [] => true
  | n :: ns => srNoneTree n && srNoneTreeList ns

end

mutual

/-- Soundness of the `staticRoot` marking throughout a tree: every node that
carries the key carries `true` exactly when `srCond` holds of it. -/
def srSound : ASTNode → Bool
  | .elem d ch bl st sr sif =>
    (sr.isNone || ((sr == some true) == srCond (.elem d ch bl st sr sif))) &&
      srSoundList ch && srSoundList bl
  | .expr _ => true
  | .text _ => true

def srSoundList : List ASTNode → Bool
  | [] => true
  | n :: ns => srSound n && srSoundList ns

end

/-- An element node that pass 2 visited: it got its `staticRoot` key
assigned.  Non-element nodes are vacuously fine. -/
def srAssigned (n : ASTNode) : Bool :=
  !n.isElem || n.staticRootF.isSome

mutual

/-- Shape of pass-2 visitation: below a node marked `staticRoot = true`
nothing was visited (all `staticRoot` keys still absent), below a node marked
`staticRoot = false` every element child and condition block was visited
(key assigned), recursively. -/
def visitInv : ASTNode → Bool
  | .elem _ ch bl _ sr _ =>
    match sr with
    | some true => srNoneTreeList ch && srNoneTreeList bl
    | some false =>
      visitInvList ch && visitInvList bl &&
        ch.all srAssigned && bl.all srAssigned
    | none => true
  | .expr _ => true
  | .text _ => true

def visitInvList : List ASTNode → Bool
  | [] => true
  | n :: ns => visitInv n && visitInvList ns

end

/-! Basic facts about the two passes. -/

theorem markStaticRootsList_eq_map (f : Bool) (l : List ASTNode) :
    markStaticRootsList f l = l.map (markStaticRoots f) := by
  induction l with
  | nil => rfl
  | cons n ns ih => simp [markStaticRootsList, ih]

theorem markStaticList_eq_map (resv : String → Bool) (extra : List String)
    (anc : List (String × Bool)) (l : List ASTNode) :
    markStaticList resv extra anc l = l.map (markStatic resv extra anc) := by
  induction l with
  | nil => rfl
  | cons n ns ih => simp [markStaticList, ih]

theorem staticF_markStaticRoots (f : Bool) (n : ASTNode) :
    (markStaticRoots f n).staticF = n.staticF := by
  cases n with
  | elem d ch bl st sr sif =>
    simp only [markStaticRoots]
    split <;> simp [ASTNode.staticF]
  | expr st => rfl
  | text st => rfl

theorem isElem_markStaticRoots (f : Bool) (n : ASTNode) :
    (markStaticRoots f n).isElem = n.isElem := by
  cases n with
  | elem d ch bl st sr sif =>
    simp only [markStaticRoots]
    split <;> simp [ASTNode.isElem]
  | expr st => rfl
  | text st => rfl

theorem isText_markStaticRoots (f : Bool) (n : ASTNode) :
    (markStaticRoots f n).isText = n.isText := by
  cases n with
  | elem d ch bl st sr sif =>
    simp only [markStaticRoots]
    split <;> simp [ASTNode.isText]
  | expr st => rfl
  | text st => rfl

theorem srAssigned_markStaticRoots (f : Bool) (n : ASTNode) :
    srAssigned (markStaticRoots f n) = true := by
  cases n with
  | elem d ch bl st sr sif =>
    simp only [markStaticRoots]
    split <;> simp [srAssigned, ASTNode.isElem, ASTNode.staticRootF]
  | expr st => simp [markStaticRoots, srAssigned, ASTNode.isElem]
  | text st => simp [markStaticRoots, srAssigned, ASTNode.isElem]

theorem isElem_markStatic (resv : String → Bool) (extra : List String)
    (anc : List (String × Bool)) (n : ASTNode) :
    (markStatic resv extra anc n).isElem = n.isElem := by
  cases n with
  | elem d ch bl st sr sif =>
    simp only [markStatic]
    split <;> simp [ASTNode.isElem]
  | expr st => rfl
  | text st => rfl

theorem staticRootF_markStatic (resv : String → Bool) (extra : List String)
    (anc : List (String × Bool)) (n : ASTNode) :
    (markStatic resv extra anc n).staticRootF = n.staticRootF := by
  cases n with
  | elem d ch bl st sr sif =>
    simp only [markStatic]
    split <;> simp [ASTNode.staticRootF]
  | expr st => rfl
  | text st => rfl

theorem staticF_isSome_markStatic (resv : String → Bool) (extra : List String)
    (anc : List (String × Bool)) (n : ASTNode) :
    (markStatic resv extra anc n).staticF.isSome = true := by
  cases n with
  | elem d ch bl st sr sif =>
    simp only [markStatic]
    split <;> simp [ASTNode.staticF]
  | expr st => simp [markStatic, ASTNode.staticF]
  | text st => simp [markStatic, ASTNode.staticF]

theorem length_markStaticRootsList (f : Bool) (l : List ASTNode) :
    (markStaticRootsList f l).length = l.length := by
  simp [markStaticRootsList_eq_map]

theorem isEmpty_markStaticRootsList (f : Bool) (l : List ASTNode) :
    (markStaticRootsList f l).isEmpty = l.isEmpty := by
  cases l <;> simp [markStaticRootsList]

theorem headD_isText_markStaticRootsList (f : Bool) (l : List ASTNode) :
    ((markStaticRootsList f l).headD (.text none)).isText
      = (l.headD (.text none)).isText := by
  cases l with
  | nil => rfl
  | cons n ns => simp [markStaticRootsList, isText_markStaticRoots]

theorem srCond_markStaticRoots_elem (f : Bool) (d : ElemData)
    (ch bl bl' : List ASTNode) (st sr sr' sif sif' : Option Bool) :
    srCond (.elem d (markStaticRootsList f ch) bl' st sr' sif')
      = srCond (.elem d ch bl st sr sif) := by
  cases ch with
  | nil => rfl
  | cons c cs =>
    simp [srCond, markStaticRootsList, isText_markStaticRoots,
      length_markStaticRootsList]

mutual

theorem srSound_of_srNoneTree (n : ASTNode) (h : srNoneTree n = true) :
    srSound n = true := by
  cases n with
  | elem d ch bl st sr sif =>
    simp only [srNoneTree, Bool.and_eq_true] at h
    simp only [srSound, Bool.and_eq_true]
    exact ⟨⟨by simp [h.1.1], srSoundList_of_srNoneTreeList ch h.1.2⟩,
      srSoundList_of_srNoneTreeList bl h.2⟩
  | expr st => rfl
  | text st => rfl

theorem srSoundList_of_srNoneTreeList (l : List ASTNode)
    (h : srNoneTreeList l = true) : srSoundList l = true := by
  cases l with
  | nil => rfl
  | cons n ns =>
    simp only [srNoneTreeList, Bool.and_eq_true] at h
    simp only [srSoundList, Bool.and_eq_true]
    exact ⟨srSound_of_srNoneTree n h.1, srSoundList_of_srNoneTreeList ns h.2⟩

end

mutual

theorem srNoneTree_markStatic (resv : String → Bool) (extra : List String)
    (anc : List (String × Bool)) (n : ASTNode) (h : srNoneTree n = true) :
    srNoneTree (markStatic resv extra anc n) = true := by
  cases n with
  | elem d ch bl st sr sif =>
    simp only [srNoneTree, Bool.and_eq_true] at h
    simp only [markStatic]
    split
    · simp only [srNoneTree, Bool.and_eq_true]
      exact ⟨⟨h.1.1, h.1.2⟩, h.2⟩
    · simp only [srNoneTree, Bool.and_eq_true]
      exact ⟨⟨h.1.1,
        srNoneTreeList_markStaticList resv extra _ ch h.1.2⟩,
        srNoneTreeList_markStaticList resv extra _ bl h.2⟩
  | expr st => rfl
  | text st => rfl

theorem srNoneTreeList_markStaticList (resv : String → Bool)
    (extra : List String) (anc : List (String × Bool)) (l : List ASTNode)
    (h : srNoneTreeList l = true) :
    srNoneTreeList (markStaticList resv extra anc l) = true := by
  cases l with
  | nil => rfl
  | cons n ns =>
    simp only [srNoneTreeList, Bool.and_eq_true] at h
    simp only [markStaticList, srNoneTreeList, Bool.and_eq_true]
    exact ⟨srNoneTree_markStatic resv extra anc n h.1,
      srNoneTreeList_markStaticList resv extra anc ns h.2⟩

end

mutual

theorem srSound_markStaticRoots (f : Bool) (n : ASTNode)
    (h : srNoneTree n = true) : srSound (markStaticRoots f n) = true := by
  cases n with
  | elem d ch bl st sr sif =>
    simp only [srNoneTree, Bool.and_eq_true] at h
    simp only [markStaticRoots]
    split
    · next hc =>
      simp only [srSound, Bool.and_eq_true]
      refine ⟨⟨?_, srSoundList_of_srNoneTreeList ch h.1.2⟩,
        srSoundList_of_srNoneTreeList bl h.2⟩
      simp only [srCond]
      rw [hc]
      decide
    · next hc =>
      simp only [srSound, Bool.and_eq_true]
      refine ⟨⟨?_, srSoundList_markStaticRootsList _ ch h.1.2⟩,
        srSoundList_markStaticRootsList f bl h.2⟩
      rw [srCond_markStaticRoots_elem (f || d.hasFor) d ch bl
        (markStaticRootsList f bl) st sr _ sif _]
      simp only [Bool.not_eq_true] at hc
      simp only [srCond]
      rw [hc]
      decide
  | expr st => rfl
  | text st => rfl

theorem srSoundList_markStaticRootsList (f : Bool) (l : List ASTNode)
    (h : srNoneTreeList l = true) :
    srSoundList (markStaticRootsList f l) = true := by
  cases l with
  | nil => rfl
  | cons n ns =>
    simp only [srNoneTreeList, Bool.and_eq_true] at h
    simp only [markStaticRootsList, srSoundList, Bool.and_eq_true]
    exact ⟨srSound_markStaticRoots f n h.1,
      srSoundList_markStaticRootsList f ns h.2⟩

end

mutual

theorem visitInv_markStaticRoots (f : Bool) (n : ASTNode)
    (h : srNoneTree n = true) : visitInv (markStaticRoots f n) = true := by
  cases n with
  | elem d ch bl st sr sif =>
    simp only [srNoneTree, Bool.and_eq_true] at h
    simp only [markStaticRoots]
    split
    · simp only [visitInv, Bool.and_eq_true]
      exact ⟨h.1.2, h.2⟩
    · simp only [visitInv, Bool.and_eq_true]
      refine ⟨⟨⟨visitInvList_markStaticRootsList _ ch h.1.2,
        visitInvList_markStaticRootsList f bl h.2⟩, ?_⟩, ?_⟩
      · rw [markStaticRootsList_eq_map]
        simp only [List.all_map, List.all_eq_true, Function.comp]
        exact fun c _ => srAssigned_markStaticRoots _ c
      · rw [markStaticRootsList_eq_map]
        simp only [List.all_map, List.all_eq_true, Function.comp]
        exact fun c _ => srAssigned_markStaticRoots f c
  | expr st => rfl
  | text st => rfl

theorem visitInvList_markStaticRootsList (f : Bool) (l : List ASTNode)
    (h : srNoneTreeList l = true) :
    visitInvList (markStaticRootsList f l) = true := by
  cases l with
  | nil => rfl
  | cons n ns =>
    simp only [srNoneTreeList, Bool.and_eq_true] at h
    simp only [markStaticRootsList, visitInvList, Bool.and_eq_true]
    exact ⟨visitInv_markStaticRoots f n h.1,
      visitInvList_markStaticRootsList f ns h.2⟩

end

/-- `node.type === 1 ? the element payload : none`. -/
def ASTNode.elemData? : ASTNode → Option ElemData
  | .elem d _ _ _ _ _ => some d
  | _ => none

/-- Children accessor (empty for non-elements). -/
def ASTNode.childrenOf : ASTNode → List ASTNode
  | .elem _ ch _ _ _ _ => ch
  | _ => []

theorem elemData?_markStaticRoots (f : Bool) (n : ASTNode) :
    (markStaticRoots f n).elemData? = n.elemData? := by
  cases n with
  | elem d ch bl st sr sif =>
    simp only [markStaticRoots]
    split <;> simp [ASTNode.elemData?]
  | expr st => rfl
  | text st => rfl

theorem elemData?_markStatic (resv : String → Bool) (extra : List String)
    (anc : List (String × Bool)) (n : ASTNode) :
    (markStatic resv extra anc n).elemData? = n.elemData? := by
  cases n with
  | elem d ch bl st sr sif =>
    simp only [markStatic]
    split <;> simp [ASTNode.elemData?]
  | expr st => rfl
  | text st => rfl

theorem staticF_markStatic_of_staticKey_present (resv : String → Bool)
    (extra : List String) (anc : List (String × Bool)) (d : ElemData)
    (ch bl : List ASTNode) (st sr sif : Option Bool)
    (hpre : d.pre = false) (hsome : st.isSome = true)
    (hex : extra.contains "static" = false) :
    (markStatic resv extra anc (.elem d ch bl st sr sif)).staticF
      = some false := by
  have hkey : "static" ∈ elemKeys d st sr sif := by
    simp [elemKeys, hsome]
  have hmem : isStaticKey extra "static" = false := by
    simp only [isStaticKey, Bool.or_eq_false_iff]
    exact ⟨by decide, hex⟩
  have hall : (elemKeys d st sr sif).all (isStaticKey extra) = false := by
    rw [List.all_eq_false]
    exact ⟨"static", hkey, by simp [hmem]⟩
  have hstat : isStatic resv extra anc (.elem d ch bl st sr sif) = false := by
    simp [isStatic, hpre, hall]
  simp only [markStatic, hstat]
  split <;> simp [ASTNode.staticF]

/-- A platform `isReservedTag` predicate for concrete test trees. -/
def demoResv (tag : String) : Bool :=
  tag == "div" || tag == "span"

/-- A fresh parser output: `<div>xx yy</div>` (a static element with two
plain-text children). -/
def tDivTwoTexts : ASTNode :=
  .elem { tag := "div" } [.text none, .text none] [] none none none

/-- A fresh parser output: `<div><span>x y</span><span>x y</span></div>`. -/
def tNestedStatic : ASTNode :=
  .elem { tag := "div" }
    [.elem { tag := "span" } [.text none, .text none] [] none none none,
     .elem { tag := "span" } [.text none, .text none] [] none none none]
    [] none none none

/-- A fresh parser output: `<div><span></span><span></span></div>`. -/
def tNestedEmptySpans : ASTNode :=
  .elem { tag := "div" }
    [.elem { tag := "span" } [] [] none none none,
     .elem { tag := "span" } [] [] none none none]
    [] none none none

/-- C3: the claim quantifies over every AST element node, but the second
optimizer pass stops at a node it marks `staticRoot = true`, so a qualifying
element below a static root never gets `staticRoot` set at all.  Concretely:
in `<div><span>x y</span><span>x y</span></div>` the first `<span>` is
static, has two children that are not a lone text node, yet after `optimize`
its `staticRoot` is not `true` (the key is still absent). -/
theorem claim_C3_counterexample :
    (((optimize demoResv [] tNestedStatic).childrenOf.headD
        (.text none)).isElem = true) ∧
    srCond ((optimize demoResv [] tNestedStatic).childrenOf.headD
        (.text none)) = true ∧
    ((optimize demoResv [] tNestedStatic).childrenOf.headD
        (.text none)).staticRootF ≠ some true := by
  decide

/-- C3 (amended): for every node whose `staticRoot` key the optimizer
assigned (the nodes pass 2 visits), `staticRoot = true` holds exactly when
the node is static, has at least one child, and the children are not exactly
one plain-text node (`srCond`); nodes below a static root keep the key
absent.  Holds for every tree the parser can produce (no `staticRoot` keys
yet). -/
theorem claim_C3_staticRoot_rule (resv : String → Bool) (extra : List String)
    (root : ASTNode) (h : srNoneTree root = true) :
    srSound (optimize resv extra root) = true :=
  srSound_markStaticRoots false (markStatic resv extra [] root)
    (srNoneTree_markStatic resv extra [] root h)

/-- Witness for `claim_C3_staticRoot_rule` at the tree
`<div><span>x y</span><span>x y</span></div>`. -/
theorem claim_C3_staticRoot_rule_witness :
    srNoneTree tNestedStatic = true ∧
    srSound (optimize demoResv [] tNestedStatic) = true :=
  ⟨by decide, claim_C3_staticRoot_rule demoResv [] tNestedStatic (by decide)⟩

/-- C4: the claim asserts `optimize` is idempotent, but the first run adds
the keys `static`/`staticRoot`/`staticInFor`, none of which is in the
allow-listed static-key set, so the second run's `isStatic` fails its
`Object.keys(node).every(isStaticKey)` check and demotes previously static
elements.  Concretely: on `<div>xx yy</div>` the first run sets
`static = true`, the second run flips it to `false`. -/
theorem claim_C4_counterexample :
    (optimize demoResv [] tDivTwoTexts).staticF = some true ∧
    (optimize demoResv []
      (optimize demoResv [] tDivTwoTexts)).staticF = some false := by
  decide

/-- C4 (amended): running the optimizer a second time is NOT idempotent: for
every element root without `v-pre`, provided the platform's extra static-key
list does not contain `"static"`, the second run sets the root's `static`
flag to `false` (the first run's added `static` key is outside the
allow-list), so whenever the first run marked the root static the two runs
disagree. -/
theorem claim_C4_not_idempotent (resv : String → Bool) (extra : List String)
    (d : ElemData) (ch bl : List ASTNode) (st sr sif : Option Bool)
    (hpre : d.pre = false) (hex : extra.contains "static" = false) :
    (optimize resv extra
        (optimize resv extra (.elem d ch bl st sr sif))).staticF
      = some false ∧
    ((optimize resv extra (.elem d ch bl st sr sif)).staticF = some true →
      (optimize resv extra
          (optimize resv extra (.elem d ch bl st sr sif))).staticF
        ≠ (optimize resv extra (.elem d ch bl st sr sif)).staticF) := by
  have hroot : ∀ n : ASTNode, n.isElem = true →
      ∃ d' ch' bl' st' sr' sif', n = .elem d' ch' bl' st' sr' sif' := by
    intro n hn
    cases n with
    | elem d' ch' bl' st' sr' sif' => exact ⟨d', ch', bl', st', sr', sif', rfl⟩
    | expr st' => simp [ASTNode.isElem] at hn
    | text st' => simp [ASTNode.isElem] at hn
  set t1 := optimize resv extra (.elem d ch bl st sr sif) with ht1
  have h1 : t1.isElem = true := by
    rw [ht1]
    simp only [optimize, isElem_markStaticRoots, isElem_markStatic]
    rfl
  have h2 : t1.staticF.isSome = true := by
    rw [ht1]
    simp only [optimize, staticF_markStaticRoots, staticF_isSome_markStatic]
  have h3 : t1.elemData? = some d := by
    rw [ht1]
    simp only [optimize, elemData?_markStaticRoots, elemData?_markStatic]
    rfl
  obtain ⟨d1, ch1, bl1, st1, sr1, sif1, he⟩ := hroot t1 h1
  have hd1 : d1 = d := by
    rw [he] at h3
    simpa [ASTNode.elemData?] using h3
  have hst1 : st1.isSome = true := by
    rw [he] at h2
    simpa [ASTNode.staticF] using h2
  have hfin : (optimize resv extra t1).staticF = some false := by
    rw [he]
    rw [optimize, staticF_markStaticRoots]
    exact staticF_markStatic_of_staticKey_present resv extra [] d1 ch1 bl1
      st1 sr1 sif1 (hd1 ▸ hpre) hst1 hex
  refine ⟨hfin, fun hfirst => ?_⟩
  rw [hfin, hfirst]
  simp

/-- Witness for `claim_C4_not_idempotent` at `<div>xx yy</div>`. -/
theorem claim_C4_not_idempotent_witness :
    ({ tag := "div" } : ElemData).pre = false ∧
    (([] : List String).contains "static" = false) ∧
    (optimize demoResv []
        (optimize demoResv []
          (.elem { tag := "div" } [.text none, .text none] []
            none none none))).staticF = some false :=
  ⟨by decide, by decide,
    (claim_C4_not_idempotent demoResv [] { tag := "div" }
      [.text none, .text none] [] none none none (by decide) (by decide)).1⟩

/-- C5: the claim says `markStaticRoots` recurses into children and
condition blocks regardless of whether the node was just marked
`staticRoot = true`, but the code returns immediately after setting
`staticRoot = true`.  Concretely: in `<div><span></span><span></span></div>`
the root is marked `staticRoot = true` and the first `<span>` — an element
node that any visit would have stamped (it is static, so a visit would set
both `staticRoot` and `staticInFor`) — still carries neither key after
`optimize`. -/
theorem claim_C5_counterexample :
    (optimize demoResv [] tNestedEmptySpans).staticRootF = some true ∧
    (((optimize demoResv [] tNestedEmptySpans).childrenOf.headD
        (.text none)).isElem = true) ∧
    ((optimize demoResv [] tNestedEmptySpans).childrenOf.headD
        (.text none)).staticRootF = none ∧
    ((optimize demoResv [] tNestedEmptySpans).childrenOf.headD
        (.text none)).staticInForF = none := by
  decide

/-- C5 (amended): the second optimizer pass recurses into a node's children
and `elseif`/`else` blocks exactly when the node was NOT just marked
`staticRoot = true`: below a `staticRoot = true` node nothing is visited
(all `staticRoot` keys stay absent), below a `staticRoot = false` node every
element child and block gets its `staticRoot` key assigned, and the root
itself is always visited.  Holds for every tree the parser can produce. -/
theorem claim_C5_visitation (resv : String → Bool) (extra : List String)
    (root : ASTNode) (h : srNoneTree root = true) :
    visitInv (optimize resv extra root) = true ∧
    srAssigned (optimize resv extra root) = true :=
  ⟨visitInv_markStaticRoots false (markStatic resv extra [] root)
      (srNoneTree_markStatic resv extra [] root h),
    srAssigned_markStaticRoots false (markStatic resv extra [] root)⟩

/-- Witness for `claim_C5_visitation` at
`<div><span></span><span></span></div>`. -/
theorem claim_C5_visitation_witness :
    srNoneTree tNestedEmptySpans = true ∧
    visitInv (optimize demoResv [] tNestedEmptySpans) = true :=
  ⟨by decide,
    (claim_C5_visitation demoResv [] tNestedEmptySpans (by decide)).1⟩

end Optimizer

namespace Codegen

/-- One entry of `el.ifConditions` as consumed by `genIfConditions`:
`exp` is the guard expression string (`v-if`/`v-else-if`), absent for
`v-else`; `block` is the branch's AST element, kept abstract (`α`) because
the branch code is produced by the injected `genTernaryExp`
(`altGen`/`genOnce`/`genElement`). -/
structure IfCondition (α : Type) where
  exp : Option String
  block : α

/-- The expression emitted by the conditional code generator, read as the
expression tree its string denotes: `"(${exp})?${A}:${B}"` is a ternary,
`"_e()"` is the empty-vnode sentinel, and a branch's generated code is an
opaque leaf carrying its block. -/
inductive Code (α : Type) where
  | ternary (cond : String) (thn els : Code α)
  | blockCode (b : α)
  | empty
deriving Repr, DecidableEq

/-- `genIfConditions(conditions, state, altGen, altEmpty)`: an empty list
yields `altEmpty || '_e()'`; otherwise shift the first condition — with an
`exp` emit `(exp)?genTernaryExp(block):genIfConditions(rest)`, without one
(`v-else`) emit `genTernaryExp(block)` (dropping any remaining entries).
`genT` stands for `genTernaryExp` (which dispatches to `altGen`, `genOnce`
or `genElement`). -/
def genIfConditions (genT : α → Code α) (altEmpty : Option (Code α)) :
    List (IfCondition α) → Code α
  | [] => altEmpty.getD .empty
  | c :: rest =>
    match c.exp with
    | some e => .ternary e (genT c.block) (genIfConditions genT altEmpty rest)
    | none => genT c.block

/-- Outcome of evaluating the emitted conditional expression under a truth
assignment: either some branch's code path, or the empty-node sentinel. -/
inductive Selected (α : Type) where
  | branch (b : α)
  | emptyNode
deriving Repr, DecidableEq

/-- Evaluation of the emitted expression by the host language, with `v`
assigning a truth value to each condition expression. -/
def evalCode (v : String → Bool) : Code α → Selected α
  | .ternary c t f => if v c then evalCode v t else evalCode v f
  | .blockCode b => .branch b
  | .empty => .emptyNode

/-- C6: for a chain `if A, elseif B, else`, the generated nested ternary
selects exactly one branch per truth assignment (the first whose condition
holds, the `else` block when both fail); for the chain without `else`, the
all-false case evaluates to the explicit `_e()` empty-node sentinel, never a
missing branch. -/
theorem claim_C6_conditional_exhaustive (v : String → Bool) (A B : String)
    (b1 b2 b3 : α) :
    evalCode v (genIfConditions Code.blockCode none
        [⟨some A, b1⟩, ⟨some B, b2⟩, ⟨none, b3⟩])
      = .branch (if v A then b1 else if v B then b2 else b3) ∧
    evalCode v (genIfConditions Code.blockCode none
        [⟨some A, b1⟩, ⟨some B, b2⟩])
      = (if v A then .branch b1 else if v B then .branch b2
         else .emptyNode) := by
  constructor
  · by_cases hA : v A <;> by_cases hB : v B <;>
      simp [genIfConditions, evalCode, hA, hB]
  · by_cases hA : v A <;> by_cases hB : v B <;>
      simp [genIfConditions, evalCode, hA, hB]

end Codegen

namespace RenderStatic

/-- A rendered static vnode tree (src/core/instance/render-helpers/
render-static.js).  `struct` records which `staticRenderFns` entry's
structure this tree has; `stamp` is the object identity — each invocation of
a static render function builds a fresh object, modelled by stamping it from
a counter.  `isStatic`/`key`/`isOnce` are the fields written by
`markStaticNode`. -/
structure SNode where
  struct : Nat
  stamp : Nat
  isStatic : Bool := false
  key : Option String := none
  isOnce : Bool := false
deriving Repr, DecidableEq

/-- The component-instance state `renderStatic` touches: `_staticTrees`
(the per-index cache, `none` = not yet rendered) and the freshness counter
standing for object allocation. -/
structure VmState where
  staticTrees : Nat → Option SNode
  nextStamp : Nat

/-- `markStaticNode(node, key, isOnce)`. -/
def markStaticNode (n : SNode) (key : String) (isOnce : Bool) : SNode :=
  { n with isStatic := true, key := some key, isOnce := isOnce }

/-- `renderStatic(index, isInFor)`: reuse the cached tree when one exists
and the call is not inside `v-for`; otherwise invoke
`staticRenderFns[index]` afresh (a brand-new tree object), store it in the
cache, mark it static with key `__static__${index}`, and return it.  `fns`
gives each static render function's output structure. -/
def renderStatic (fns : Nat → Nat) (index : Nat) (isInFor : Bool)
    (st : VmState) : SNode × VmState :=
  let render : SNode × VmState :=
    let raw : SNode := { struct := fns index, stamp := st.nextStamp }
    let tree := markStaticNode raw ("__static__" ++ toString index) false
    (tree,
      { staticTrees := fun i => if i = index then some tree else st.staticTrees i,
        nextStamp := st.nextStamp + 1 })
  match st.staticTrees index with
  | some tree => if !isInFor then (tree, st) else render
  | none => render

/-- C8: with the in-loop flag `false`, a cache hit returns the identical
cached tree object and leaves the instance untouched; with the flag `true`,
an invocation after a first render yields a clone of the subtree — same
structure, same static marking — that is a different object from the cached
instance. -/
theorem claim_C8_static_cache (fns : Nat → Nat) (idx : Nat) (st : VmState) :
    (∀ t : SNode, st.staticTrees idx = some t →
      renderStatic fns idx false st = (t, st)) ∧
    (st.staticTrees idx = none →
      ((renderStatic fns idx true
          (renderStatic fns idx false st).2).1.struct
        = (renderStatic fns idx false st).1.struct ∧
       (renderStatic fns idx true
          (renderStatic fns idx false st).2).1.key
        = (renderStatic fns idx false st).1.key ∧
       (renderStatic fns idx true
          (renderStatic fns idx false st).2).1.isStatic
        = (renderStatic fns idx false st).1.isStatic ∧
       (renderStatic fns idx true
          (renderStatic fns idx false st).2).1.stamp
        ≠ (renderStatic fns idx false st).1.stamp)) := by
  constructor
  · intro t ht
    simp [renderStatic, ht]
  · intro hnone
    simp [renderStatic, hnone, markStaticNode]

/-- Witness for `claim_C8_static_cache`: an instance whose slot 0 caches a
tree returns it unchanged, and a fresh instance re-renders per iteration
inside `v-for`. -/
theorem claim_C8_static_cache_witness :
    (({ staticTrees := fun _ =>
          some { struct := 7, stamp := 3, isStatic := true,
                 key := some "__static__0", isOnce := false },
        nextStamp := 4 } : VmState).staticTrees 0
      = some { struct := 7, stamp := 3, isStatic := true,
               key := some "__static__0", isOnce := false }) ∧
    (renderStatic (fun _ => 7) 0 false
        { staticTrees := fun _ =>
            some { struct := 7, stamp := 3, isStatic := true,
                   key := some "__static__0", isOnce := false },
          nextStamp := 4 }
      = ({ struct := 7, stamp := 3, isStatic := true,
           key := some "__static__0", isOnce := false },
         { staticTrees := fun _ =>
             some { struct := 7, stamp := 3, isStatic := true,
                    key := some "__static__0", isOnce := false },
           nextStamp := 4 })) :=
  ⟨rfl,
    (claim_C8_static_cache (fun _ => 7) 0
        { staticTrees := fun _ =>
            some { struct := 7, stamp := 3, isStatic := true,
                   key := some "__static__0", isOnce := false },
          nextStamp := 4 }).1
      { struct := 7, stamp := 3, isStatic := true,
        key := some "__static__0", isOnce := false } rfl⟩

end RenderStatic

namespace Render

/-- A virtual node as `Vue.prototype._render` observes it: identity plus the
fields the boundary reads/writes (`isComment`, `text`, and the `parent`
back-link to the placeholder vnode written at the end of `_render`). -/
structure MVNode where
  id : Nat
  isComment : Bool := false
  text : Option String := none
  parent : Option Nat := none
deriving Repr, DecidableEq

/-- Modelled from the spec: `createEmptyVNode` lives in src/core/vdom/
vnode.js, which is not part of the repository snapshot; the spec calls its
output an "empty placeholder (comment) node", so it is a comment vnode with
empty text. -/
def createEmptyVNode : MVNode :=
  { id := 0, isComment := true, text := some "" }

/-- A JavaScript value returned by a render function: a virtual node, an
array of values, or anything else (string, number, `undefined`, ...). -/
inductive RVal where
  | vnode (v : MVNode)
  | arr (l : List RVal)
  | nonVNode
deriving Repr

/-- The component instance as `_render` uses it: the outcome of calling
`render` (which may throw), the optional `renderError` hook and the outcome
of calling it, the previous rendered tree `vm._vnode`, the placeholder
`_parentVnode`, and whether this is a development build
(`process.env.NODE_ENV !== 'production'`). -/
structure Vm where
  renderOutcome : Except Unit RVal
  renderErrorOutcome : Option (Except Unit RVal)
  prevVnode : Option MVNode
  parentVnodeId : Option Nat
  dev : Bool
deriving Repr

/-- What `_render` produces: the returned vnode, whether the multi-root
diagnostic fired, and how many exceptions were reported to `handleError`. -/
structure RenderResult where
  vnode : MVNode
  multiRootWarned : Bool
  errorsReported : Nat
deriving Repr, DecidableEq

/-- `vm._vnode` as a JS value (JS `null` is not `instanceof VNode`). -/
def prevAsRVal : Option MVNode → RVal
  | some v => .vnode v
  | none => .nonVNode

/-- `Vue.prototype._render` (src/core/instance/render.js): call `render`;
on a throw report it and fall back to `renderError` (development builds
only, itself guarded against throwing) or the previous tree; then unwrap a
one-element array, replace any non-vnode result with `createEmptyVNode`
(warning — in development — only when the bad result is an array), and set
`vnode.parent` to the placeholder node. -/
def vueRender (vm : Vm) : RenderResult :=
  let step1 : RVal × Nat :=
    match vm.renderOutcome with
    | .ok v => (v, 0)
    | .error _ =>
      if vm.dev && vm.renderErrorOutcome.isSome then
        match vm.renderErrorOutcome with
        | some (.ok v) => (v, 1)
        | some (.error _) => (prevAsRVal vm.prevVnode, 2)
        | none => (prevAsRVal vm.prevVnode, 1)
      else (prevAsRVal vm.prevVnode, 1)
  let v1 : RVal :=
    match step1.1 with
    | .arr [x] => x
    | r => r
  let checked : MVNode × Bool :=
    match v1 with
    | .vnode v => (v, false)
    | .arr _ => (createEmptyVNode, vm.dev)
    | .nonVNode => (createEmptyVNode, false)
  { vnode := { checked.1 with parent := vm.parentVnodeId },
    multiRootWarned := checked.2,
    errorsReported := step1.2 }

/-- C9: the claim says a non-virtual-node return produces the placeholder
"together with a diagnostic", but the code warns only when the bad value is
an array: a render function returning a plain string (or `undefined`) gets
the empty placeholder silently, even in a development build. -/
theorem claim_C9_counterexample :
    vueRender { renderOutcome := .ok .nonVNode, renderErrorOutcome := none,
                prevVnode := none, parentVnodeId := none, dev := true }
      = { vnode := { id := 0, isComment := true, text := some "",
                     parent := none },
          multiRootWarned := false, errorsReported := 0 } := by
  rfl

/-- C9 (amended): the render boundary always yields a single vnode and
never re-raises: a one-element array is unwrapped; a multi-root array yields
the empty placeholder with the diagnostic (development builds); any other
non-vnode return yields the placeholder silently; when `render` throws, the
result is the `renderError` hook's output when one is supplied (in a
development build), else the previous tree, else — or when the value at
hand is not a vnode — the empty placeholder.  Stated for development
builds. -/
theorem claim_C9_render_boundary (vm : Vm) (hdev : vm.dev = true) :
    (∀ v : MVNode, vm.renderOutcome = .ok (.arr [.vnode v]) →
      (vueRender vm).vnode = { v with parent := vm.parentVnodeId }) ∧
    (∀ l : List RVal, vm.renderOutcome = .ok (.arr l) → l.length ≠ 1 →
      (vueRender vm).vnode
          = { createEmptyVNode with parent := vm.parentVnodeId } ∧
        (vueRender vm).multiRootWarned = true) ∧
    (vm.renderOutcome = .ok .nonVNode →
      (vueRender vm).vnode
          = { createEmptyVNode with parent := vm.parentVnodeId } ∧
        (vueRender vm).multiRootWarned = false) ∧
    (∀ e v, vm.renderOutcome = .error e →
      vm.renderErrorOutcome = some (.ok (.vnode v)) →
      (vueRender vm).vnode = { v with parent := vm.parentVnodeId }) ∧
    (∀ e p, vm.renderOutcome = .error e → vm.renderErrorOutcome = none →
      vm.prevVnode = some p →
      (vueRender vm).vnode = { p with parent := vm.parentVnodeId }) ∧
    (∀ e, vm.renderOutcome = .error e → vm.renderErrorOutcome = none →
      vm.prevVnode = none →
      (vueRender vm).vnode
        = { createEmptyVNode with parent := vm.parentVnodeId }) ∧
    (∀ e e' p, vm.renderOutcome = .error e →
      vm.renderErrorOutcome = some (.error e') → vm.prevVnode = some p →
      (vueRender vm).vnode = { p with parent := vm.parentVnodeId }) := by
  refine ⟨?_, ?_, ?_, ?_, ?_, ?_, ?_⟩
  · intro v hr
    simp [vueRender, hr]
  · intro l hr hlen
    cases l with
    | nil => simp [vueRender, hr, createEmptyVNode, hdev]
    | cons x xs =>
      cases xs with
      | nil => simp at hlen
      | cons y ys => simp [vueRender, hr, createEmptyVNode, hdev]
  · intro hr
    simp [vueRender, hr, createEmptyVNode]
  · intro e v hr hre
    simp [vueRender, hr, hre, hdev]
  · intro e p hr hre hp
    simp [vueRender, hr, hre, hp, hdev, prevAsRVal]
  · intro e hr hre hp
    simp [vueRender, hr, hre, hp, hdev, prevAsRVal, createEmptyVNode]
  · intro e e' p hr hre hp
    simp [vueRender, hr, hre, hp, hdev, prevAsRVal]

/-- Witness for `claim_C9_render_boundary`: a render function that threw,
on an instance with no `renderError` hook and a previous tree — the stale
tree is returned. -/
theorem claim_C9_render_boundary_witness :
    ({ renderOutcome := .error (), renderErrorOutcome := none,
       prevVnode := some { id := 5 }, parentVnodeId := some 9,
       dev := true } : Vm).dev = true ∧
    (vueRender { renderOutcome := .error (), renderErrorOutcome := none,
                 prevVnode := some { id := 5 }, parentVnodeId := some 9,
                 dev := true }).vnode
      = { id := 5, isComment := false, text := none, parent := some 9 } :=
  ⟨rfl,
    (claim_C9_render_boundary
        { renderOutcome := .error (), renderErrorOutcome := none,
          prevVnode := some { id := 5 }, parentVnodeId := some 9,
          dev := true } rfl).2.2.2.2.1 () { id := 5 } rfl rfl rfl⟩

end Render

namespace Parser

/-- A child node as the parser's `closeElement`/`trimEndingWhitespace` see
it: its `type` (1 element, 2 expression, 3 text), its text, and whether it
carries a `slotScope` key. -/
structure PNode where
  ptype : Nat
  text : String := ""
  slotScope : Bool := false
deriving Repr, DecidableEq

/-- The node `trimEndingWhitespace` pops: a plain-text child whose text is
exactly one collapsed space. -/
def isSpaceText (n : PNode) : Bool :=
  n.ptype == 3 && n.text == " "

/-- `trimEndingWhitespace(el)`: outside `<pre>`, repeatedly pop the last
child while it is a single-space text node.  The while-loop over
`el.children.pop()` is the removal of the maximal trailing run of such
nodes. -/
def trimEndingWhitespace (inPre : Bool) (children : List PNode) :
    List PNode :=
  if !inPre then ((children.reverse.dropWhile isSpaceText).reverse)
  else children

/-- The children pipeline of `closeElement` (src/compiler/parser/index.js):
trim trailing whitespace, run `processElement` and tree management
(abstracted as `process`, which may rewrite the children arbitrarily),
filter out scoped-slot children, and trim trailing whitespace again. -/
def closeElementChildren (process : List PNode → List PNode) (inPre : Bool)
    (children : List PNode) : List PNode :=
  let c1 := trimEndingWhitespace inPre children
  let c2 := process c1
  let c3 := c2.filter (fun c => !c.slotScope)
  trimEndingWhitespace inPre c3

theorem head?_dropWhile_isSpaceText (l : List PNode) (n : PNode)
    (h : (l.dropWhile isSpaceText).head? = some n) : isSpaceText n = false := by
  induction l with
  | nil => simp [List.dropWhile] at h
  | cons x xs ih =>
    by_cases hx : isSpaceText x
    · rw [List.dropWhile_cons_of_pos hx] at h
      exact ih h
    · rw [List.dropWhile_cons_of_neg hx] at h
      simp only [List.head?_cons, Option.some_inj] at h
      subst h
      simpa using hx

/-- C10: for every element closed outside a `<pre>` context, whatever
`processElement` and the tree management did to the children, the final
children list never ends in a collapsed single-space text node: the trailing
trim runs again after scoped-slot children are filtered out. -/
theorem claim_C10_no_trailing_space (process : List PNode → List PNode)
    (children : List PNode) (n : PNode)
    (h : (closeElementChildren process false children).getLast? = some n) :
    isSpaceText n = false := by
  simp only [closeElementChildren, trimEndingWhitespace, Bool.not_false,
    if_pos] at h
  rw [List.getLast?_reverse] at h
  exact head?_dropWhile_isSpaceText _ n h

/-- Witness for `claim_C10_no_trailing_space`: closing `<div>x&nbsp;</div>`
(children `[text "x", text " "]`) with the identity processing leaves
`[text "x"]`, whose last child is not a space. -/
theorem claim_C10_no_trailing_space_witness :
    (closeElementChildren id false
        [{ ptype := 3, text := "x" }, { ptype := 3, text := " " }]).getLast?
      = some { ptype := 3, text := "x", slotScope := false } ∧
    isSpaceText { ptype := 3, text := "x", slotScope := false } = false :=
  ⟨by decide,
    claim_C10_no_trailing_space id
      [{ ptype := 3, text := "x" }, { ptype := 3, text := " " }]
      { ptype := 3, text := "x", slotScope := false } (by decide)⟩

end Parser

namespace Patch

/-- A JS value read while probing `data.attrs.type`: the short-circuit
`false` (when `data` or `attrs` is missing), `undefined` (attrs present but
no `type`), or a string.  `===` on these values is `BEq`. -/
inductive JsTypeVal where
  | fls
  | undef
  | str (s : String)
deriving Repr, DecidableEq

/-- The non-recursive payload of a virtual node: every field
`sameVnode`/`patchVnode`/`createElm` read.  `oid` is the JS object identity
(two vnodes are `===` iff their `oid`s agree; a fresh render always builds
new objects).  `hasData`/`hasAttrs`/`attrsType` model
`data`/`data.attrs`/`data.attrs.type` as far as `sameInputType` probes them.
`elm` is the live DOM node the vnode is associated with. -/
structure VNodeCore where
  oid : Nat
  tag : Option String := none
  key : Option Nat := none
  isComment : Bool := false
  hasData : Bool := false
  hasAttrs : Bool := false
  attrsType : Option String := none
  isAsyncPlaceholder : Bool := false
  asyncFactory : Option Nat := none
  asyncFactoryError : Bool := false
  isStatic : Bool := false
  isCloned : Bool := false
  isOnce : Bool := false
  text : Option String := none
  elm : Option Nat := none
deriving Repr, DecidableEq

/-- A virtual node: core payload plus `children` (`none` = the JS field is
`undefined`, as on text/comment/childless element vnodes). -/
inductive VNode where
  | mk (core : VNodeCore) (children : Option (List VNode))
deriving Repr

namespace VNode

def core : VNode → VNodeCore
  | mk c _ => c

def childrenF : VNode → Option (List VNode)
  | mk _ ch => ch

/-- Replace the `elm` field (the JS assignment `vnode.elm = ...`). -/
def withElm (e : Option Nat) : VNode → VNode
  | mk c ch => mk { c with elm := e } ch

@[simp] theorem core_mk (c : VNodeCore) (ch : Option (List VNode)) :
    (mk c ch).core = c := rfl

@[simp] theorem childrenF_mk (c : VNodeCore) (ch : Option (List VNode)) :
    (mk c ch).childrenF = ch := rfl

@[simp] theorem withElm_mk (e : Option Nat) (c : VNodeCore)
    (ch : Option (List VNode)) :
    (mk c ch).withElm e = mk { c with elm := e } ch := rfl

end VNode

/-- Modelled from the spec: `isTextInputType` is imported from
web/util/element.js, which is not in the repository snapshot; it recognizes
the text-like `<input>` types whose elements are interchangeable.  No claim
below compares `<input>` vnodes, so only its shape matters here. -/
def isTextInputType : JsTypeVal → Bool
  | .str s =>
    ["text", "number", "password", "search", "email", "tel", "url"].contains s
  | _ => false

/-- The value of `isDef(i = a.data) && isDef(i = i.attrs) && i.type`. -/
def jsTypeVal (v : VNode) : JsTypeVal :=
  if !v.core.hasData then .fls
  else if !v.core.hasAttrs then .fls
  else
    match v.core.attrsType with
    | none => .undef
    | some s => .str s

/-- `sameInputType(a, b)` of src/core/vdom/patch.js. -/
def sameInputType (a b : VNode) : Bool :=
  if a.core.tag == some "input" then
    jsTypeVal a == jsTypeVal b ||
      (isTextInputType (jsTypeVal a) && isTextInputType (jsTypeVal b))
  else true

/-- `sameVnode(a, b)` of src/core/vdom/patch.js: equal key AND (equal tag,
comment flag, data-definedness and compatible input type, OR both sides of
one unresolved async placeholder). -/
def sameVnode (a b : VNode) : Bool :=
  a.core.key == b.core.key &&
    ((a.core.tag == b.core.tag &&
      a.core.isComment == b.core.isComment &&
      a.core.hasData == b.core.hasData &&
      sameInputType a b) ||
     (a.core.isAsyncPlaceholder &&
      a.core.asyncFactory == b.core.asyncFactory &&
      !b.core.asyncFactoryError))

/-- The body of `findIdxInOld`'s `for (let i = start; i < end; i++)` loop,
compiled to recursion on the remaining iteration count `end - i`: at each
step test `isDef(c) && sameVnode(node, c)` and return `i` on the first
match. -/
def findIdxInOldGo (node : VNode) (oldCh : List (Option VNode)) :
    Nat → Nat → Option Nat
  | _, 0 => none
  | i, r + 1 =>
    match (oldCh.get? i).join with
    | some c =>
      if sameVnode node c then some i
      else findIdxInOldGo node oldCh (i + 1) r
    | none => findIdxInOldGo node oldCh (i + 1) r

/-- `findIdxInOld(node, oldCh, start, end)`: scan `i` from `start` while
`i < end` (the entry at index `end` itself is never examined) and return the
first index whose entry is defined and a "same node" match. -/
def findIdxInOld (node : VNode) (oldCh : List (Option VNode))
    (start endI : Nat) : Option Nat :=
  findIdxInOldGo node oldCh start (endI - start)

/-- The search the amended claim describes, written from its words: the
first index of the half-open range `[start, end)` holding a defined entry
that is a "same node" match for `node`. -/
def firstSameVnodeIdx (node : VNode) (oldCh : List (Option VNode))
    (start endI : Nat) : Option Nat :=
  (List.range' start (endI - start)).find?
    (fun i => ((oldCh.get? i).join.map (sameVnode node)).getD false)

theorem findIdxInOldGo_eq_find? (node : VNode) (oldCh : List (Option VNode))
    (r i : Nat) :
    findIdxInOldGo node oldCh i r
      = (List.range' i r).find?
          (fun j => ((oldCh.get? j).join.map (sameVnode node)).getD false) := by
  induction r generalizing i with
  | zero => rfl
  | succ r ih =>
    rw [List.range'_succ]
    cases hj : (oldCh.get? i).join with
    | some c =>
      by_cases hs : sameVnode node c
      · rw [List.find?_cons_of_pos]
        · simp only [findIdxInOldGo]
          rw [hj]
          simp [hs]
        · rw [hj]
          simp [hs]
      · rw [List.find?_cons_of_neg]
        · simp only [findIdxInOldGo]
          rw [hj]
          simp [hs, ih]
        · rw [hj]
          simp [hs]
    | none =>
      rw [List.find?_cons_of_neg]
      · simp only [findIdxInOldGo]
        rw [hj]
        simp [ih]
      · rw [hj]
        simp

/-- Old children for the C7 counterexample: a keyless `<div>` then a keyless
`<span>`, both live. -/
def cxOldDiv : VNode := .mk { oid := 1, tag := some "div", elm := some 10 } none
def cxOldSpan : VNode := .mk { oid := 2, tag := some "span", elm := some 11 } none
/-- The keyless new-start `<span>` the fallback search looks for. -/
def cxNewSpan : VNode := .mk { oid := 3, tag := some "span" } none

/-- C7: the claim says the fallback search examines the remaining old range
through `oldEndIdx` INCLUSIVE, but the loop runs `i < end`: with
`oldStartIdx = 0`, `oldEndIdx = 1` and the only "same node" match sitting at
index 1, `findIdxInOld` returns nothing even though index 1 holds a match. -/
theorem claim_C7_counterexample :
    findIdxInOld cxNewSpan [some cxOldDiv, some cxOldSpan] 0 1 = none ∧
    sameVnode cxNewSpan cxOldSpan = true := by
  decide

/-- C7 (amended): the fallback search for a keyless new-start node examines
the half-open range from `oldStartIdx` up to but excluding `oldEndIdx` and
returns the index of the first defined old entry there that is a "same node"
match (the entry at `oldEndIdx` is skipped; `updateChildren` reaches this
search only after the oldEnd/newStart comparison already failed). -/
theorem claim_C7_fallback_scan (node : VNode) (oldCh : List (Option VNode))
    (start endI : Nat) :
    findIdxInOld node oldCh start endI
      = firstSameVnodeIdx node oldCh start endI :=
  findIdxInOldGo_eq_find? node oldCh (endI - start) start

/-! The DOM surface and the operation log for the list-diff claims. -/

/-- One mutation of the live surface, in execution order.  `create` is a
`nodeOps.createElement`/`createTextNode`/`createComment`; `insert` is the
guarded `insert` helper attaching a freshly created node; `move` is a direct
`nodeOps.insertBefore` of an existing live node; `remove` is `removeNode`;
`setText` is `nodeOps.setTextContent`. -/
inductive Op where
  | create (elm : Nat)
  | insert (elm : Nat) (before : Option Nat)
  | move (elm : Nat) (before : Option Nat)
  | remove (elm : Nat)
  | setText (elm : Nat) (t : String)
deriving Repr, DecidableEq

/-- The live surface: the ordered child list of each parent node id. -/
abbrev Dom := List (Nat × List Nat)

def domChildren (d : Dom) (p : Nat) : List Nat :=
  (d.lookup p).getD []

def domSetChildren (d : Dom) (p : Nat) (l : List Nat) : Dom :=
  if (d.lookup p).isSome then
    d.map (fun q => if q.1 = p then (p, l) else q)
  else d ++ [(p, l)]

/-- `nodeOps.parentNode(el)`. -/
def domParent (d : Dom) (e : Nat) : Option Nat :=
  (d.find? (fun q => q.2.contains e)).map (·.1)

/-- Detach a node from whatever parent currently holds it (the implicit move
semantics of the DOM `insertBefore`/`appendChild`). -/
def domDetach (d : Dom) (e : Nat) : Dom :=
  d.map (fun q => (q.1, q.2.filter (· ≠ e)))

/-- Insert `e` immediately before the first occurrence of `r`. -/
def insertBeforeInList (l : List Nat) (e r : Nat) : List Nat :=
  match l with
  | [] => []
  | x :: xs => if x = r then e :: x :: xs else x :: insertBeforeInList xs e r

/-- `nodeOps.insertBefore(parent, elm, ref)` / `nodeOps.appendChild(parent,
elm)` (`ref = none`): the node is detached from its current parent and
placed under `p`. -/
def nodeInsertBefore (d : Dom) (p e : Nat) (ref : Option Nat) : Dom :=
  let d := domDetach d e
  match ref with
  | some r => domSetChildren d p (insertBeforeInList (domChildren d p) e r)
  | none => domSetChildren d p (domChildren d p ++ [e])

/-- `nodeOps.nextSibling(el)`. -/
def domNextSibling (d : Dom) (e : Option Nat) : Option Nat :=
  match e with
  | none => none
  | some e' =>
    match domParent d e' with
    | none => none
    | some p =>
      match (domChildren d p).dropWhile (· ≠ e') with
      | _ :: next :: _ => some next
      | _ => none

/-- The mutable world threaded through patching: the live surface, the
allocators for fresh live-node ids and fresh vnode object identities, and
the log of DOM operations. -/
structure PState where
  dom : Dom
  nextElm : Nat
  nextOid : Nat
  ops : List Op
deriving Repr, DecidableEq

/-- Modelled from the spec: `cloneVNode` (src/core/vdom/vnode.js) is not in
the snapshot; it copies a vnode into a fresh object with `isCloned = true`
(the clause the spec needs it for is reusing vnodes across renders).  No
claim below reaches a clone (their new vnodes carry no `elm` yet). -/
def cloneVNode (v : VNode) (st : PState) : VNode × PState :=
  (.mk { v.core with oid := st.nextOid, isCloned := true } v.childrenF,
    { st with nextOid := st.nextOid + 1 })

/-- The `insert(parent, elm, ref)` helper of `createPatchFunction`: with a
`ref`, insert only if `ref` is currently a child of `parent`; without one,
append. -/
def insertOp (st : PState) (parent : Option Nat) (e : Nat)
    (ref : Option Nat) : PState :=
  match parent with
  | none => st
  | some p =>
    match ref with
    | some r =>
      if domParent st.dom r == some p then
        { st with dom := nodeInsertBefore st.dom p e (some r),
                  ops := st.ops ++ [.insert e (some r)] }
      else st
    | none =>
      { st with dom := nodeInsertBefore st.dom p e none,
                ops := st.ops ++ [.insert e none] }

/-- A `canMove`-guarded direct `nodeOps.insertBefore` (the move of an
existing live node in the diff's cases 5-7). -/
def moveOp (st : PState) (parent : Nat) (e : Option Nat)
    (ref : Option Nat) : PState :=
  match e with
  | none => st
  | some e' =>
    { st with dom := nodeInsertBefore st.dom parent e' ref,
              ops := st.ops ++ [.move e' ref] }

/-- `removeNode(el)`: detach if a parent exists. -/
def removeNodeOp (st : PState) (e : Option Nat) : PState :=
  match e with
  | none => st
  | some e' =>
    match domParent st.dom e' with
    | none => st
    | some _ =>
      { st with dom := domDetach st.dom e', ops := st.ops ++ [.remove e'] }

/-- `removeVnodes(vnodes, startIdx, endIdx)` as recursion on the remaining
index count.  A vnode with a tag goes through
`removeAndInvokeRemoveHook` + `invokeDestroyHook` — with no injected modules
and no `data.hook` on the modelled vnodes both reduce to `removeNode` — and
a text node is removed directly. -/
def removeVnodes (vnodes : List (Option VNode)) :
    Nat → Nat → PState → PState
  | _, 0, st => st
  | i, r + 1, st =>
    let st :=
      match (vnodes.get? i).join with
      | some ch => removeNodeOp st ch.core.elm
      | none => st
    removeVnodes vnodes (i + 1) r st

/-- `createKeyToOldIdx(children, beginIdx, endIdx)`: map each defined key in
the inclusive range to its index.  Later entries are prepended so that
lookup returns the last-written index, as JS object assignment does.  (The
map is built before any entry has been nulled out.) -/
def createKeyToOldIdx (children : List (Option VNode)) (b e : Int) :
    List (Nat × Nat) :=
  (List.range' b.toNat (e + 1 - b).toNat).foldl
    (fun m i =>
      match (children.get? i).join with
      | some c =>
        match c.core.key with
        | some k => (k, i) :: m
        | none => m
      | none => m)
    []

/-- `l[i]` for a JS index that may have run negative. -/
def getOpt (l : List α) (i : Int) : Option α :=
  if i < 0 then none else l.get? i.toNat

/-- `l[i] = v` (no-op outside the list, which the loop never does). -/
def setAt (l : List VNode) (i : Int) (v : VNode) : List VNode :=
  if i < 0 then l else l.set i.toNat v

/-- The cursor state of `updateChildren`'s while loop: the (nullable) old
children, the new children (vnodes get their `elm` assigned as they are
patched/created), the four indices, the lazily built key map, and the
world. -/
structure LoopState where
  oldCh : List (Option VNode)
  newCh : List VNode
  oldStartIdx : Int
  oldEndIdx : Int
  newStartIdx : Int
  newEndIdx : Int
  oldKeyToIdx : Option (List (Nat × Nat))
  st : PState
deriving Repr

mutual

/-- `createElm(vnode, queue, parentElm, refElm, nested, ownerArray, index)`:
clone a vnode already carrying a live node (reused from a previous render;
`ownerArray` is always defined at the modelled call sites), fall through
`createComponent` (the modelled vnodes carry no `data.hook.init`), create
the element (or text/comment node) with a fresh id, create its children
inside it, and insert it under `parentElm` before `refElm`.  Module `create`
hooks and scope/transition bookkeeping have no DOM-shape effect with the
empty module list and are omitted. -/
def createElm (fuel : Nat) (v : VNode) (parent : Option Nat)
    (ref : Option Nat) (st : PState) : VNode × PState :=
  match fuel with
  | 0 => (v, st)
  | fuel + 1 =>
    let (v, st) := if v.core.elm.isSome then cloneVNode v st else (v, st)
    let e := st.nextElm
    let st := { st with nextElm := st.nextElm + 1,
                        ops := st.ops ++ [.create e] }
    let v := v.withElm (some e)
    match v.core.tag with
    | some _ =>
      let (v, st) :=
        match v.childrenF with
        | some ch =>
          let (ch', st) := createChildren fuel ch e st
          (.mk v.core (some ch'), st)
        | none => (v, st)
      (v, insertOp st parent e ref)
    | none =>
      -- comment and text nodes: created and inserted, no children
      (v, insertOp st parent e ref)

/-- `createChildren(vnode, children, queue)`: create each child inside the
freshly built element (`checkDuplicateKeys` is a console diagnostic only). -/
def createChildren (fuel : Nat) (ch : List VNode) (parentE : Nat)
    (st : PState) : List VNode × PState :=
  match fuel with
  | 0 => (ch, st)
  | fuel + 1 =>
    match ch with
    | [] => ([], st)
    | c :: cs =>
      let (c', st) := createElm fuel c (some parentE) none st
      let (cs', st) := createChildren fuel cs parentE st
      (c' :: cs', st)

/-- `addVnodes(parentElm, refElm, vnodes, startIdx, endIdx, queue)`:
`createElm` each vnode of the range before `refElm`, writing results back
into the owner array. -/
def addVnodes (fuel : Nat) (parent : Option Nat) (ref : Option Nat)
    (newCh : List VNode) (i remaining : Nat) (st : PState) :
    List VNode × PState :=
  match fuel with
  | 0 => (newCh, st)
  | fuel + 1 =>
    match remaining with
    | 0 => (newCh, st)
    | r + 1 =>
      match newCh.get? i with
      | some v =>
        let (v', st) := createElm fuel v parent ref st
        addVnodes fuel parent ref (newCh.set i v') (i + 1) r st
      | none => (newCh, st)

/-- `patchVnode(oldVnode, vnode, queue, ownerArray, index, removeOnly)`:
no-op on the identical object; clone a reused vnode; adopt the old live
node (`vnode.elm = oldVnode.elm`); carry async-placeholder state (the
resolved/hydrate sub-path belongs to server rendering, outside this model
and every claim); short-circuit matched static trees; then reconcile text
and children — both children arrays (always distinct objects across
renders) go through `updateChildren`, one-sided ones through
`addVnodes`/`removeVnodes`, and text through `setTextContent`.  The
`prepatch`/`update`/`postpatch` hooks are absent on the modelled vnodes and
the injected module list is empty. -/
def patchVnode (fuel : Nat) (oldV newV : VNode) (st : PState) :
    Option (VNode × PState) :=
  match fuel with
  | 0 => some (newV, st)
  | fuel + 1 =>
    if oldV.core.oid == newV.core.oid then some (newV, st)
    else
      let (newV, st) :=
        if newV.core.elm.isSome then cloneVNode newV st else (newV, st)
      let newV := newV.withElm oldV.core.elm
      if oldV.core.isAsyncPlaceholder then
        some (.mk { newV.core with isAsyncPlaceholder := true }
          newV.childrenF, st)
      else if newV.core.isStatic && oldV.core.isStatic &&
          newV.core.key == oldV.core.key &&
          (newV.core.isCloned || newV.core.isOnce) then
        some (newV, st)
      else
        match newV.core.text with
        | none =>
          match oldV.childrenF, newV.childrenF with
          | some oldCh, some ch =>
            match oldV.core.elm with
            | some elmId => do
              let (ch', st') ← updateChildren fuel elmId oldCh ch false st
              some (.mk newV.core (some ch'), st')
            | none => some (newV, st)
          | none, some ch =>
            match oldV.core.elm with
            | some elmId =>
              let st :=
                if oldV.core.text.isSome then
                  { st with ops := st.ops ++ [.setText elmId ""] }
                else st
              let (ch', st) :=
                addVnodes fuel (some elmId) none ch 0 ch.length st
              some (.mk newV.core (some ch'), st)
            | none => some (newV, st)
          | some oldCh, none =>
            some (newV, removeVnodes (oldCh.map some) 0 oldCh.length st)
          | none, none =>
            match oldV.core.elm, oldV.core.text with
            | some elmId, some _ =>
              some (newV, { st with ops := st.ops ++ [.setText elmId ""] })
            | _, _ => some (newV, st)
        | some t =>
          if oldV.core.text != some t then
            match oldV.core.elm with
            | some elmId =>
              some (newV, { st with ops := st.ops ++ [.setText elmId t] })
            | none => some (newV, st)
          else some (newV, st)

/-- The while loop of `updateChildren`, one constructor of `fuel` per
iteration: skip nulled ends, try the four pairwise comparisons, otherwise
build the key map once and resolve the new-start node by key (or by the
linear fallback scan), patching+moving a true match, nulling its old slot,
and treating a key collision or a miss as a brand-new element.  A key-map
hit on an already-nulled slot (duplicate keys across renders) makes the
source throw on `sameVnode(undefined, _)` — modelled as `none`. -/
def updateChildrenLoop (fuel : Nat) (parentElm : Nat) (canMove : Bool)
    (ls : LoopState) : Option LoopState :=
  match fuel with
  | 0 => some ls
  | fuel + 1 =>
    if ls.oldStartIdx ≤ ls.oldEndIdx ∧ ls.newStartIdx ≤ ls.newEndIdx then
      match (getOpt ls.oldCh ls.oldStartIdx).join with
      | none =>
        updateChildrenLoop fuel parentElm canMove
          { ls with oldStartIdx := ls.oldStartIdx + 1 }
      | some oSV =>
        match (getOpt ls.oldCh ls.oldEndIdx).join with
        | none =>
          updateChildrenLoop fuel parentElm canMove
            { ls with oldEndIdx := ls.oldEndIdx - 1 }
        | some oEV =>
          match getOpt ls.newCh ls.newStartIdx,
              getOpt ls.newCh ls.newEndIdx with
          | some nSV, some nEV =>
            if sameVnode oSV nSV then do
              let (nSV', st') ← patchVnode fuel oSV nSV ls.st
              updateChildrenLoop fuel parentElm canMove
                { ls with newCh := setAt ls.newCh ls.newStartIdx nSV',
                          oldStartIdx := ls.oldStartIdx + 1,
                          newStartIdx := ls.newStartIdx + 1, st := st' }
            else if sameVnode oEV nEV then do
              let (nEV', st') ← patchVnode fuel oEV nEV ls.st
              updateChildrenLoop fuel parentElm canMove
                { ls with newCh := setAt ls.newCh ls.newEndIdx nEV',
                          oldEndIdx := ls.oldEndIdx - 1,
                          newEndIdx := ls.newEndIdx - 1, st := st' }
            else if sameVnode oSV nEV then do
              -- vnode moved right: after patching, move the old-start live
              -- node to just after the old-end live node
              let (nEV', st') ← patchVnode fuel oSV nEV ls.st
              let st' :=
                if canMove then
                  moveOp st' parentElm oSV.core.elm
                    (domNextSibling st'.dom oEV.core.elm)
                else st'
              updateChildrenLoop fuel parentElm canMove
                { ls with newCh := setAt ls.newCh ls.newEndIdx nEV',
                          oldStartIdx := ls.oldStartIdx + 1,
                          newEndIdx := ls.newEndIdx - 1, st := st' }
            else if sameVnode oEV nSV then do
              -- vnode moved left: move the old-end live node to just before
              -- the old-start live node
              let (nSV', st') ← patchVnode fuel oEV nSV ls.st
              let st' :=
                if canMove then moveOp st' parentElm oEV.core.elm oSV.core.elm
                else st'
              updateChildrenLoop fuel parentElm canMove
                { ls with newCh := setAt ls.newCh ls.newStartIdx nSV',
                          oldEndIdx := ls.oldEndIdx - 1,
                          newStartIdx := ls.newStartIdx + 1, st := st' }
            else
              let km :=
                match ls.oldKeyToIdx with
                | some m => m
                | none =>
                  createKeyToOldIdx ls.oldCh ls.oldStartIdx ls.oldEndIdx
              let idxInOld : Option Nat :=
                match nSV.core.key with
                | some k => km.lookup k
                | none =>
                  findIdxInOld nSV ls.oldCh ls.oldStartIdx.toNat
                    ls.oldEndIdx.toNat
              match idxInOld with
              | none =>
                -- brand-new element: create before the old-start live node
                let (nSV', st') :=
                  createElm fuel nSV (some parentElm) oSV.core.elm ls.st
                updateChildrenLoop fuel parentElm canMove
                  { ls with newCh := setAt ls.newCh ls.newStartIdx nSV',
                            newStartIdx := ls.newStartIdx + 1,
                            oldKeyToIdx := some km, st := st' }
              | some idx =>
                match (ls.oldCh.get? idx).join with
                | none => none
                | some vnodeToMove =>
                  if sameVnode vnodeToMove nSV then do
                    let (nSV', st') ← patchVnode fuel vnodeToMove nSV ls.st
                    let st' :=
                      if canMove then
                        moveOp st' parentElm vnodeToMove.core.elm
                          oSV.core.elm
                      else st'
                    updateChildrenLoop fuel parentElm canMove
                      { ls with oldCh := ls.oldCh.set idx none,
                                newCh := setAt ls.newCh ls.newStartIdx nSV',
                                newStartIdx := ls.newStartIdx + 1,
                                oldKeyToIdx := some km, st := st' }
                  else
                    -- same key but different element: treat as new
                    let (nSV', st') :=
                      createElm fuel nSV (some parentElm) oSV.core.elm ls.st
                    updateChildrenLoop fuel parentElm canMove
                      { ls with newCh := setAt ls.newCh ls.newStartIdx nSV',
                                newStartIdx := ls.newStartIdx + 1,
                                oldKeyToIdx := some km, st := st' }
          | _, _ => none
    else some ls

/-- `updateChildren(parentElm, oldCh, newCh, queue, removeOnly)`: run the
four-pointer loop, then bulk-insert the unconsumed new vnodes before the
live node after the last processed new position (old side exhausted first)
or bulk-remove the unconsumed old vnodes (new side exhausted first).
`checkDuplicateKeys` is a console diagnostic with no surface effect. -/
def updateChildren (fuel : Nat) (parentElm : Nat) (oldCh newCh : List VNode)
    (removeOnly : Bool) (st : PState) : Option (List VNode × PState) :=
  match fuel with
  | 0 => none
  | fuel + 1 => do
    let canMove := !removeOnly
    let ls ← updateChildrenLoop fuel parentElm canMove
      { oldCh := oldCh.map some, newCh := newCh,
        oldStartIdx := 0, oldEndIdx := (oldCh.length : Int) - 1,
        newStartIdx := 0, newEndIdx := (newCh.length : Int) - 1,
        oldKeyToIdx := none, st := st }
    if ls.oldStartIdx > ls.oldEndIdx then
      let refElm : Option Nat :=
        match getOpt ls.newCh (ls.newEndIdx + 1) with
        | none => none
        | some v => v.core.elm
      some (addVnodes fuel (some parentElm) refElm ls.newCh
        ls.newStartIdx.toNat (ls.newEndIdx + 1 - ls.newStartIdx).toNat ls.st)
    else if ls.newStartIdx > ls.newEndIdx then
      some (ls.newCh, removeVnodes ls.oldCh ls.oldStartIdx.toNat
        (ls.oldEndIdx + 1 - ls.oldStartIdx).toNat ls.st)
    else some (ls.newCh, ls.st)

end

/-- A leaf element vnode produced by a render: a tag, a key, no data, no
children, no text, and — for the previous render's tree — its live node. -/
def leafV (oid : Nat) (tag : String) (k : Nat) (elm : Option Nat) : VNode :=
  .mk { oid := oid, tag := some tag, key := some k, elm := elm } none

@[simp] theorem leafV_core (o : Nat) (t : String) (k : Nat)
    (e : Option Nat) :
    (leafV o t k e).core
      = { oid := o, tag := some t, key := some k, elm := e } := rfl

@[simp] theorem leafV_childrenF (o : Nat) (t : String) (k : Nat)
    (e : Option Nat) : (leafV o t k e).childrenF = none := rfl

@[simp] theorem leafV_withElm (o : Nat) (t : String) (k : Nat)
    (e e' : Option Nat) : (leafV o t k e).withElm e' = leafV o t k e' := rfl

/-- `createElm` on a fresh childless element vnode: assign the next live-node
id, log the creation, and insert before `ref`. -/
theorem createElm_succ_leaf (f : Nat) (o : Nat) (t : String) (k : Nat)
    (parent ref : Option Nat) (st : PState) :
    createElm (f + 1) (leafV o t k none) parent ref st
      = (leafV o t k (some st.nextElm),
         insertOp { st with nextElm := st.nextElm + 1,
                            ops := st.ops ++ [.create st.nextElm] }
           parent st.nextElm ref) := by
  simp [createElm, leafV]

/-- `patchVnode` on a matched pair of plain leaf vnodes (distinct objects,
new side not yet rendered): the new vnode adopts the old live node and
nothing else happens. -/
theorem patchVnode_succ_leaf (f : Nat) (o o' : Nat) (t t' : String)
    (k k' : Nat) (e : Nat) (st : PState) (hoid : (o == o') = false) :
    patchVnode (f + 1) (leafV o t k (some e)) (leafV o' t' k' none) st
      = some (leafV o' t' k' (some e), st) := by
  simp [patchVnode, leafV, hoid]

/-- C1: for a keyed pure rotation — old children `[a(k1), b(k2), c(k3)]`
(live nodes `e1 e2 e3`), new children `[c(k3), a(k1), b(k2)]` — the diff
performs exactly one move (one `insertBefore` of the existing live node
`e3` before `e1`), zero creations and zero removals, and every key keeps
its live node: the new vnodes come out associated with `e3`, `e1`, `e2`
respectively, the surface reordered to `[e3, e1, e2]`. -/
theorem claim_C1_rotation_single_move (ta tb tc : String)
    (k1 k2 k3 e1 e2 e3 p n m : Nat)
    (hk12 : k1 ≠ k2) (hk13 : k1 ≠ k3) (hk23 : k2 ≠ k3)
    (he12 : e1 ≠ e2) (he13 : e1 ≠ e3) (he23 : e2 ≠ e3) :
    updateChildren 5 p
      [leafV 1 ta k1 (some e1), leafV 2 tb k2 (some e2),
       leafV 3 tc k3 (some e3)]
      [leafV 4 tc k3 none, leafV 5 ta k1 none, leafV 6 tb k2 none] false
      { dom := [(p, [e1, e2, e3])], nextElm := n, nextOid := m, ops := [] }
    = some ([leafV 4 tc k3 (some e3), leafV 5 ta k1 (some e1),
             leafV 6 tb k2 (some e2)],
        { dom := [(p, [e3, e1, e2])], nextElm := n, nextOid := m,
          ops := [.move e3 (some e1)] }) := by
  have s14 : sameVnode (leafV 1 ta k1 (some e1)) (leafV 4 tc k3 none)
      = false := by
    simp [sameVnode, leafV, hk13]
  have s36 : sameVnode (leafV 3 tc k3 (some e3)) (leafV 6 tb k2 none)
      = false := by
    simp [sameVnode, leafV, Ne.symm hk23]
  have s16 : sameVnode (leafV 1 ta k1 (some e1)) (leafV 6 tb k2 none)
      = false := by
    simp [sameVnode, leafV, hk12]
  have s34 : sameVnode (leafV 3 tc k3 (some e3)) (leafV 4 tc k3 none)
      = true := by
    simp [sameVnode, sameInputType, jsTypeVal, leafV]
  have s15 : sameVnode (leafV 1 ta k1 (some e1)) (leafV 5 ta k1 none)
      = true := by
    simp [sameVnode, sameInputType, jsTypeVal, leafV]
  have s26 : sameVnode (leafV 2 tb k2 (some e2)) (leafV 6 tb k2 none)
      = true := by
    simp [sameVnode, sameInputType, jsTypeVal, leafV]
  simp [updateChildren, updateChildrenLoop, s14, s36, s16, s34, s15, s26,
    getOpt, setAt, createKeyToOldIdx, List.range', createElm_succ_leaf,
    patchVnode_succ_leaf, insertOp, domParent, domChildren, domSetChildren,
    domDetach, nodeInsertBefore, insertBeforeInList, removeVnodes,
    removeNodeOp, moveOp, domNextSibling, addVnodes, createChildren,
    List.lookup, he12, he13, he23, Ne.symm he12, Ne.symm he13, Ne.symm he23]

/-- Witness for `claim_C1_rotation_single_move` at keys `1 2 3`, live nodes
`10 20 30`. -/
theorem claim_C1_rotation_single_move_witness :
    ((1 : Nat) ≠ 2 ∧ (1 : Nat) ≠ 3 ∧ (2 : Nat) ≠ 3 ∧
     (10 : Nat) ≠ 20 ∧ (10 : Nat) ≠ 30 ∧ (20 : Nat) ≠ 30) ∧
    updateChildren 5 100
      [leafV 1 "li" 1 (some 10), leafV 2 "li" 2 (some 20),
       leafV 3 "li" 3 (some 30)]
      [leafV 4 "li" 3 none, leafV 5 "li" 1 none, leafV 6 "li" 2 none] false
      { dom := [(100, [10, 20, 30])], nextElm := 50, nextOid := 90, ops := [] }
    = some ([leafV 4 "li" 3 (some 30), leafV 5 "li" 1 (some 10),
             leafV 6 "li" 2 (some 20)],
        { dom := [(100, [30, 10, 20])], nextElm := 50, nextOid := 90,
          ops := [.move 30 (some 10)] }) :=
  ⟨⟨by decide, by decide, by decide, by decide, by decide, by decide⟩,
    claim_C1_rotation_single_move "li" "li" "li" 1 2 3 10 20 30 100 50 90
      (by decide) (by decide) (by decide) (by decide) (by decide) (by decide)⟩

/-- C2: for old children `[div(key=k)]` (live node `e`) and new children
`[span(key=k)]`, `sameVnode` is false despite the equal key (the tags
differ), so the reconciler does not patch in place: a fresh live node is
created for the span and inserted before the div's node, and the div's node
is then removed — the surface ends holding only the new node. -/
theorem claim_C2_key_collision (k e p n m : Nat) (hne : n ≠ e) :
    sameVnode (leafV 1 "div" k (some e)) (leafV 2 "span" k none) = false ∧
    updateChildren 5 p [leafV 1 "div" k (some e)] [leafV 2 "span" k none]
      false { dom := [(p, [e])], nextElm := n, nextOid := m, ops := [] }
    = some ([leafV 2 "span" k (some n)],
        { dom := [(p, [n])], nextElm := n + 1, nextOid := m,
          ops := [.create n, .insert n (some e), .remove e] }) := by
  have hsv : sameVnode (leafV 1 "div" k (some e)) (leafV 2 "span" k none)
      = false := by
    simp [sameVnode, leafV]
  refine ⟨hsv, ?_⟩
  simp [updateChildren, updateChildrenLoop, hsv, getOpt, setAt,
    createKeyToOldIdx, List.range', createElm_succ_leaf, insertOp, domParent,
    domChildren, domSetChildren, domDetach, nodeInsertBefore,
    insertBeforeInList, removeVnodes, removeNodeOp, moveOp, domNextSibling,
    addVnodes, createChildren, List.lookup, hne, Ne.symm hne]

/-- Witness for `claim_C2_key_collision` at key `1`, old live node `10`,
fresh id `50`. -/
theorem claim_C2_key_collision_witness :
    ((50 : Nat) ≠ 10) ∧
    updateChildren 5 100 [leafV 1 "div" 1 (some 10)]
      [leafV 2 "span" 1 none] false
      { dom := [(100, [10])], nextElm := 50, nextOid := 90, ops := [] }
    = some ([leafV 2 "span" 1 (some 50)],
        { dom := [(100, [50])], nextElm := 51, nextOid := 90,
          ops := [.create 50, .insert 50 (some 10), .remove 10] }) :=
  ⟨by decide,
    (claim_C2_key_collision 1 10 100 50 90 (by decide)).2⟩

end Patch
